import Mathlib

/-!
Verification of the CodeChain network extension core
(`src/network/src/client.rs` and `src/network/src/timer.rs`).

The Registry (`Client`) is embedded as an association list from extension
names to extension states.  An extension state records the sequence of
callback invocations it has observed, exactly as the instrumented
`tests::TestExtension` in `client.rs` does; each dispatch operation of
`Client` is transcribed as a pure function on the registry.
-/

/-- Callback invocations observable on an extension, mirroring
`tests::Callback` in `client.rs` (extended with the local-message callback
dispatched by `define_method!(on_local_message; ...)`). -/
inductive Callback where
  | Initialized
  | NodeAdded
  | NodeRemoved
  | Message
  | Timeout
  | LocalMessage
deriving DecidableEq

/-- An extension: its protocol name (`NetworkExtension::name`) together with
the log of callbacks invoked on it so far (`tests::TestExtension.callbacks`). -/
structure Extension where
  name : String
  callbacks : List Callback
deriving DecidableEq

/-- The `Client.extensions` table: `HashMap<&'static str, Arc<NetworkExtension>>`,
embedded as an association list with unique keys maintained by insertion. -/
abbrev Registry := List (String × Extension)

/-- Embeds `HashMap::get`: first entry whose key equals `name`. -/
def lookupExt : Registry → String → Option Extension
  | [], _ => none
  | (k, e) :: rest, name => if k = name then some e else lookupExt rest name

/-- Replace the extension stored under `name` by `f` of it; entries under
other keys are untouched (the in-place mutation performed through the
`&Arc<NetworkExtension>` returned by `get`). -/
def updateExt : Registry → String → (Extension → Extension) → Registry
  | [], _, _ => []
  | (k, e) :: rest, name, f =>
    if k = name then (k, f e) :: updateExt rest name f
    else (k, e) :: updateExt rest name f

/-- Embeds `callbacks.push(c)` on an extension's log. -/
def pushCb (c : Callback) (e : Extension) : Extension :=
  ⟨e.name, e.callbacks ++ [c]⟩

/-- The body generated by `define_method!`: look the single target up by
name; if present invoke its callback (push `c`), otherwise log and drop. -/
def targetedPush (r : Registry) (name : String) (c : Callback) : Registry :=
  match lookupExt r name with
  | some _ => updateExt r name (pushCb c)
  | none => r

/-- Embeds `Client::on_message` (client.rs:200-208): single-target dispatch of a
network message; the peer id and payload are passed to the extension, which
(as `TestExtension`) records one `Message` invocation. -/
def Client.on_message (r : Registry) (name : String) (_id : Nat) (_data : List Nat) : Registry :=
  targetedPush r name .Message

/-- Embeds `define_method!(on_timeout; timer_id, TimerToken)` (client.rs:210). -/
def Client.on_timeout (r : Registry) (name : String) (_timer_id : Nat) : Registry :=
  targetedPush r name .Timeout

/-- Embeds `define_method!(on_local_message; message, &[u8])` (client.rs:212). -/
def Client.on_local_message (r : Registry) (name : String) (_message : List Nat) : Registry :=
  targetedPush r name .LocalMessage

/-- Embeds `define_method!(on_node_added; id, &NodeId; version, u64)` (client.rs:197):
a single-target dispatch taking the target extension name. -/
def Client.on_node_added (r : Registry) (name : String) (_id : Nat) (_version : Nat) : Registry :=
  targetedPush r name .NodeAdded

/-- The body generated by `define_broadcast_method!`: invoke the callback on
every registered extension, in table iteration order. -/
def broadcastPush (c : Callback) : Registry → Registry
  | [] => []
  | (k, e) :: rest => (k, pushCb c e) :: broadcastPush c rest

/-- Embeds `define_broadcast_method!(on_node_removed; id, &NodeId)` (client.rs:198):
invoke `on_node_removed` on every registered extension. -/
def Client.on_node_removed (r : Registry) (_id : Nat) : Registry :=
  broadcastPush .NodeRemoved r

/-- Embeds `HashMap::insert(name, ext)`: replaces the entry when the key is present
(returning the previous value), appends a fresh entry otherwise. -/
def mapInsert (r : Registry) (ext : Extension) : Registry × Option Extension :=
  match lookupExt r ext.name with
  | some old => (updateExt r ext.name (fun _ => ext), some old)
  | none => (r ++ [(ext.name, ext)], none)

/-- Result of `Client::register_extension`: either the updated registry, or a
`panic!` carrying the message and the registry state at the moment of the
panic. -/
inductive RegisterResult where
  | ok (r : Registry)
  | panicked (msg : String) (r : Registry)
deriving DecidableEq

/-- Embeds `Client::register_extension` (client.rs:158-165): insert under the write
lock, then panic if the insert returned a previous entry. -/
def Client.register_extension (r : Registry) (ext : Extension) : RegisterResult :=
  let ins := mapInsert r ext
  match ins.2 with
  | some _ => .panicked ("Duplicated extension name : " ++ ext.name) ins.1
  | none => .ok ins.1

/-- Number of recorded invocations of callback `c` on the extension
registered under `name` (0 when absent). -/
def cbCount (r : Registry) (name : String) (c : Callback) : Nat :=
  match lookupExt r name with
  | some e => e.callbacks.count c
  | none => 0

/-- Dispatch a sequence of messages (peer id, payload) to the same target
name, in order. -/
def dispatchMessages (r : Registry) (name : String) (ps : List (Nat × List Nat)) : Registry :=
  ps.foldl (fun s p => Client.on_message s name p.1 p.2) r

/-- A two-extension registry as built by `tests::message_only_to_target`
after both registrations and initializations. -/
def sampleReg : Registry :=
  [("e1", ⟨"e1", [.Initialized]⟩), ("e2", ⟨"e2", [.Initialized]⟩)]

theorem lookupExt_updateExt_self (r : Registry) (name : String) (f : Extension → Extension) :
    lookupExt (updateExt r name f) name = (lookupExt r name).map f := by
  induction r with
  | nil => rfl
  | cons p rest ih =>
    obtain ⟨k, e⟩ := p
    by_cases h : k = name
    · subst h
      simp [updateExt, lookupExt]
    · simp [updateExt, lookupExt, h, ih]

theorem lookupExt_updateExt_ne (r : Registry) (name m : String) (f : Extension → Extension)
    (hne : m ≠ name) :
    lookupExt (updateExt r name f) m = lookupExt r m := by
  induction r with
  | nil => rfl
  | cons p rest ih =>
    obtain ⟨k, e⟩ := p
    by_cases h : k = name
    · subst h
      simp [updateExt, lookupExt, Ne.symm hne, ih]
    · simp [updateExt, lookupExt, h, ih]

theorem count_pushCb_self (e : Extension) (c : Callback) :
    ((pushCb c e).callbacks).count c = e.callbacks.count c + 1 := by
  simp [pushCb]

theorem cbCount_targetedPush_self (r : Registry) (name : String) (c : Callback)
    (h : (lookupExt r name).isSome) :
    cbCount (targetedPush r name c) name c = cbCount r name c + 1 := by
  obtain ⟨e, he⟩ := Option.isSome_iff_exists.mp h
  simp [targetedPush, he, cbCount, lookupExt_updateExt_self, count_pushCb_self]

theorem cbCount_targetedPush_ne (r : Registry) (name m : String) (c c' : Callback)
    (hne : m ≠ name) :
    cbCount (targetedPush r name c) m c' = cbCount r m c' := by
  cases hl : lookupExt r name with
  | none => simp [targetedPush, hl]
  | some e => simp [targetedPush, hl, cbCount, lookupExt_updateExt_ne r name m _ hne]

theorem isSome_targetedPush (r : Registry) (name m : String) (c : Callback) :
    (lookupExt (targetedPush r name c) m).isSome = (lookupExt r m).isSome := by
  cases hl : lookupExt r name with
  | none => simp [targetedPush, hl]
  | some e =>
    by_cases h : m = name
    · subst h
      simp [targetedPush, hl, lookupExt_updateExt_self]
    · simp [targetedPush, hl, lookupExt_updateExt_ne r name m _ h]

theorem targetedPush_absent (r : Registry) (name : String) (c : Callback)
    (h : lookupExt r name = none) :
    targetedPush r name c = r := by
  simp [targetedPush, h]

theorem dispatchMessages_count_self (name : String) (ps : List (Nat × List Nat)) :
    ∀ r : Registry, (lookupExt r name).isSome →
      cbCount (dispatchMessages r name ps) name .Message = cbCount r name .Message + ps.length := by
  induction ps with
  | nil => intro r _; simp [dispatchMessages]
  | cons p ps ih =>
    intro r h
    have hstep : (lookupExt (Client.on_message r name p.1 p.2) name).isSome = true := by
      rw [Client.on_message, isSome_targetedPush]; exact h
    have := ih (Client.on_message r name p.1 p.2) hstep
    simp only [dispatchMessages, List.foldl_cons, List.length_cons] at *
    rw [this, Client.on_message, cbCount_targetedPush_self r name .Message h]
    omega

theorem dispatchMessages_count_other (name m : String) (c : Callback)
    (ps : List (Nat × List Nat)) (hne : m ≠ name) :
    ∀ r : Registry, cbCount (dispatchMessages r name ps) m c = cbCount r m c := by
  induction ps with
  | nil => intro r; simp [dispatchMessages]
  | cons p ps ih =>
    intro r
    have := ih (Client.on_message r name p.1 p.2)
    simp only [dispatchMessages, List.foldl_cons] at *
    rw [this, Client.on_message, cbCount_targetedPush_ne r name m _ _ hne]

/-- C1: after registering `e1` and `e2`, a message dispatched to `e1`
produces exactly one `on_message` invocation on `e1` and none on `e2`, and
any sequence of messages dispatched to `e2` (with arbitrary peer ids and
payloads) produces exactly one invocation on `e2` per message and none on
`e1`. -/
theorem dispatch_isolation (r : Registry) (e1 e2 : String) (id : Nat) (d : List Nat)
    (ps : List (Nat × List Nat))
    (h1 : (lookupExt r e1).isSome) (h2 : (lookupExt r e2).isSome) (hne : e1 ≠ e2) :
    cbCount (Client.on_message r e1 id d) e1 .Message = cbCount r e1 .Message + 1 ∧
    cbCount (Client.on_message r e1 id d) e2 .Message = cbCount r e2 .Message ∧
    cbCount (dispatchMessages r e2 ps) e2 .Message = cbCount r e2 .Message + ps.length ∧
    cbCount (dispatchMessages r e2 ps) e1 .Message = cbCount r e1 .Message := by
  refine ⟨?_, ?_, ?_, ?_⟩
  · exact cbCount_targetedPush_self r e1 .Message h1
  · exact cbCount_targetedPush_ne r e1 e2 .Message .Message (Ne.symm hne)
  · exact dispatchMessages_count_self e2 ps r h2
  · exact dispatchMessages_count_other e2 e1 .Message ps hne r

/-- C1 witness: the scenario of `tests::message_only_to_target`, with one
message to `e1` and three messages to `e2` from peers 8081 and 8085. -/
theorem dispatch_isolation_witness :
    cbCount (Client.on_message sampleReg "e1" 8081 []) "e1" .Message =
      cbCount sampleReg "e1" .Message + 1 ∧
    cbCount (Client.on_message sampleReg "e1" 8081 []) "e2" .Message =
      cbCount sampleReg "e2" .Message ∧
    cbCount (dispatchMessages sampleReg "e2" [(8081, []), (8085, []), (8081, [])]) "e2" .Message =
      cbCount sampleReg "e2" .Message + [(8081, ([] : List Nat)), (8085, []), (8081, [])].length ∧
    cbCount (dispatchMessages sampleReg "e2" [(8081, []), (8085, []), (8081, [])]) "e1" .Message =
      cbCount sampleReg "e1" .Message :=
  dispatch_isolation sampleReg "e1" "e2" 8081 [] [(8081, []), (8085, []), (8081, [])]
    (by decide) (by decide) (by decide)

theorem lookupExt_broadcastPush (r : Registry) (n : String) (c : Callback) :
    lookupExt (broadcastPush c r) n = (lookupExt r n).map (pushCb c) := by
  induction r with
  | nil => rfl
  | cons p rest ih =>
    obtain ⟨k, e⟩ := p
    by_cases h : k = n
    · subst h
      simp [broadcastPush, lookupExt]
    · simp [broadcastPush, lookupExt, h, ih]

/-- C2 counterexample: with `e1` and `e2` both registered,
`on_node_added` addressed to `e1` does not invoke `on_node_added` on the
registered extension `e2` — so `dispatch_node_added` is not a broadcast to
every registered extension, refuting the claim. -/
theorem node_added_not_broadcast_cex :
    (lookupExt sampleReg "e2").isSome = true ∧
    ¬ (cbCount (Client.on_node_added sampleReg "e1" 8081 0) "e2" .NodeAdded =
        cbCount sampleReg "e2" .NodeAdded + 1) := by
  constructor
  · decide
  · decide

/-- C2 amended: `dispatch_node_removed(id)` broadcasts `on_node_removed` to
every registered extension, while `dispatch_node_added(name, id, version)`
is a single-target lookup that invokes `on_node_added` only on the named
extension and on no other registered extension. -/
theorem node_dispatch_semantics (r : Registry) (id v : Nat) (n m : String)
    (hn : (lookupExt r n).isSome) (hm : (lookupExt r m).isSome) (hne : n ≠ m) :
    cbCount (Client.on_node_removed r id) n .NodeRemoved = cbCount r n .NodeRemoved + 1 ∧
    cbCount (Client.on_node_removed r id) m .NodeRemoved = cbCount r m .NodeRemoved + 1 ∧
    cbCount (Client.on_node_added r n id v) n .NodeAdded = cbCount r n .NodeAdded + 1 ∧
    cbCount (Client.on_node_added r n id v) m .NodeAdded = cbCount r m .NodeAdded := by
  obtain ⟨en, hen⟩ := Option.isSome_iff_exists.mp hn
  obtain ⟨em, hem⟩ := Option.isSome_iff_exists.mp hm
  refine ⟨?_, ?_, ?_, ?_⟩
  · simp [Client.on_node_removed, cbCount, lookupExt_broadcastPush, hen, count_pushCb_self]
  · simp [Client.on_node_removed, cbCount, lookupExt_broadcastPush, hem, count_pushCb_self]
  · exact cbCount_targetedPush_self r n .NodeAdded hn
  · exact cbCount_targetedPush_ne r n m .NodeAdded .NodeAdded (Ne.symm hne)

/-- C2 amended witness: the two-extension sample registry. -/
theorem node_dispatch_semantics_witness :
    cbCount (Client.on_node_removed sampleReg 8081) "e1" .NodeRemoved =
      cbCount sampleReg "e1" .NodeRemoved + 1 ∧
    cbCount (Client.on_node_removed sampleReg 8081) "e2" .NodeRemoved =
      cbCount sampleReg "e2" .NodeRemoved + 1 ∧
    cbCount (Client.on_node_added sampleReg "e1" 8081 0) "e1" .NodeAdded =
      cbCount sampleReg "e1" .NodeAdded + 1 ∧
    cbCount (Client.on_node_added sampleReg "e1" 8081 0) "e2" .NodeAdded =
      cbCount sampleReg "e2" .NodeAdded :=
  node_dispatch_semantics sampleReg 8081 0 "e1" "e2" (by decide) (by decide) (by decide)

theorem lookupExt_append_self (r : Registry) (name : String) (e : Extension)
    (h : lookupExt r name = none) :
    lookupExt (r ++ [(name, e)]) name = some e := by
  induction r with
  | nil => simp [lookupExt]
  | cons p rest ih =>
    obtain ⟨k, e'⟩ := p
    by_cases hk : k = name
    · simp [lookupExt, hk] at h
    · simp only [lookupExt, hk] at h
      simp [lookupExt, hk, ih h]

/-- C5: `register_extension` with a name already present in the table
signals a fatal error (panics); registering a not-yet-present name inserts
the extension into the table and does not fail. -/
theorem register_extension_semantics (r : Registry) (ext : Extension) :
    (lookupExt r ext.name = none →
      Client.register_extension r ext = .ok (r ++ [(ext.name, ext)]) ∧
      lookupExt (r ++ [(ext.name, ext)]) ext.name = some ext) ∧
    (∀ old, lookupExt r ext.name = some old →
      ∃ msg r', Client.register_extension r ext = .panicked msg r') := by
  constructor
  · intro h
    exact ⟨by simp [Client.register_extension, mapInsert, h],
      lookupExt_append_self r ext.name ext h⟩
  · intro old h
    exact ⟨"Duplicated extension name : " ++ ext.name, updateExt r ext.name (fun _ => ext),
      by simp [Client.register_extension, mapInsert, h]⟩

/-- C5 witness: registering `e1` into an empty table succeeds; registering a
second extension named `e1` into the sample registry panics. -/
theorem register_extension_semantics_witness :
    Client.register_extension [] ⟨"e1", []⟩ = .ok [("e1", ⟨"e1", []⟩)] ∧
    (∃ msg r', Client.register_extension sampleReg ⟨"e1", []⟩ = .panicked msg r') :=
  ⟨((register_extension_semantics [] ⟨"e1", []⟩).1 rfl).1,
    (register_extension_semantics sampleReg ⟨"e1", []⟩).2 ⟨"e1", [.Initialized]⟩ (by decide)⟩

/-- C8: a `dispatch_message`, `dispatch_timeout` or `dispatch_local_message`
whose target name is not in the table invokes no extension callback and
returns normally with the registry unchanged (the event is logged and
dropped), so dispatch to every other extension is unaffected. -/
theorem unknown_target_dropped (r : Registry) (name : String) (id tok : Nat)
    (d msg : List Nat) (h : lookupExt r name = none) :
    Client.on_message r name id d = r ∧
    Client.on_timeout r name tok = r ∧
    Client.on_local_message r name msg = r :=
  ⟨targetedPush_absent r name .Message h,
    targetedPush_absent r name .Timeout h,
    targetedPush_absent r name .LocalMessage h⟩

/-- C8 witness: dispatching to the unregistered name `e3` leaves the sample
registry untouched. -/
theorem unknown_target_dropped_witness :
    Client.on_message sampleReg "e3" 8081 [] = sampleReg ∧
    Client.on_timeout sampleReg "e3" 0 = sampleReg ∧
    Client.on_local_message sampleReg "e3" [] = sampleReg :=
  unknown_target_dropped sampleReg "e3" 8081 0 [] [] (by decide)

/-- C10: when `register_extension` hits a duplicate name, `HashMap::insert`
has already replaced the existing entry with the new extension before the
panic is raised, so the registry state carried into the panic maps the name
to the new extension and (when the two extensions differ) is not the
original table. -/
theorem register_duplicate_mutates (r : Registry) (ext old : Extension)
    (h : lookupExt r ext.name = some old) :
    ∃ msg, Client.register_extension r ext =
        .panicked msg (updateExt r ext.name (fun _ => ext)) ∧
      lookupExt (updateExt r ext.name (fun _ => ext)) ext.name = some ext ∧
      (ext ≠ old → updateExt r ext.name (fun _ => ext) ≠ r) := by
  refine ⟨"Duplicated extension name : " ++ ext.name, ?_, ?_, ?_⟩
  · simp [Client.register_extension, mapInsert, h]
  · simp [lookupExt_updateExt_self, h]
  · intro hne heq
    have : lookupExt (updateExt r ext.name (fun _ => ext)) ext.name = some old := by
      rw [heq, h]
    rw [lookupExt_updateExt_self, h] at this
    simp at this
    exact hne this.symm.symm

/-- C10 witness: registering a second `e1` (with a different callback log)
into the sample registry panics with the table already holding the new
extension under `e1`. -/
theorem register_duplicate_mutates_witness :
    ∃ msg, Client.register_extension sampleReg ⟨"e1", []⟩ =
        .panicked msg (updateExt sampleReg "e1" (fun _ => ⟨"e1", []⟩)) ∧
      lookupExt (updateExt sampleReg "e1" (fun _ => ⟨"e1", []⟩)) "e1" = some ⟨"e1", []⟩ ∧
      ((⟨"e1", []⟩ : Extension) ≠ ⟨"e1", [.Initialized]⟩ →
        updateExt sampleReg "e1" (fun _ => ⟨"e1", []⟩) ≠ sampleReg) :=
  register_duplicate_mutates sampleReg ⟨"e1", []⟩ ⟨"e1", [.Initialized]⟩ (by decide)

/-! ### Timer dispatch handler (`src/network/src/timer.rs`)

The Timer Token Allocator (`timer_info.rs`, type `TimerInfo`) is not among
the provided sources; it is modelled from §4.3 of the specification.  The
`Handler` itself is transcribed from `timer.rs`, with its calls into the
external IO timer facility and its reports to the Registry returned as
explicit event lists. -/

/-- Embeds `timer_info::Error`. -/
inductive TimerInfoError where
  | DuplicatedTimerId
  | NoSpace
deriving DecidableEq

/-- Embeds `extension::Error` variants used by the timer handler (the source file
of the enum is not provided; the two variants are those referenced in
`timer.rs`). -/
inductive ExtensionError where
  | DuplicatedTimerId
  | NoMoreTimerToken
deriving DecidableEq

/-- The `(extension_name, timer_id, once)` triple bound to an active slot. -/
structure TimerItem where
  name : String
  timer_id : Nat
  once : Bool
deriving DecidableEq

/-- Modelled from the spec: `timer_info::TimerInfo`, the Timer Token
Allocator (§4.3), is not in the provided sources.  A fixed pool of slots
starting at low-level token `first`; slot `i` holds token `first + i` and is
either free or bound to one `(name, timer_id, once)` triple. -/
structure TimerInfo where
  first : Nat
  slots : List (Option TimerItem)
deriving DecidableEq

/-- First index of the pool satisfying `p`, scanning in slot order. -/
def firstIdxWhere (p : Option TimerItem → Bool) : List (Option TimerItem) → Option Nat
  | [] => none
  | s :: rest => if p s then some 0 else (firstIdxWhere p rest).map (· + 1)

/-- Whether a slot is bound to the given `(name, timer_id)` pair. -/
def matchesInfo (name : String) (timer_id : Nat) : Option TimerItem → Bool
  | some it => it.name == name && it.timer_id == timer_id
  | none => false

/-- Modelled from the spec: `TimerInfo::new(begin, max_timers)` — an empty
pool of `max_timers` free slots whose tokens start at `begin`. -/
def TimerInfo.new (first max_timers : Nat) : TimerInfo :=
  ⟨first, List.replicate max_timers none⟩

/-- Modelled from the spec: `(name, timer_id)` is currently active. -/
def TimerInfo.isActive (t : TimerInfo) (name : String) (timer_id : Nat) : Bool :=
  t.slots.any (matchesInfo name timer_id)

/-- Modelled from the spec: `TimerInfo::insert(name, timer_id, once)` —
fails with `DuplicatedTimerId` if the pair is active, else allocates the
first free slot and returns its token, failing with `NoSpace` when no slot
is free; failures leave the table unmodified. -/
def TimerInfo.insert (t : TimerInfo) (name : String) (timer_id : Nat) (once : Bool) :
    Except TimerInfoError Nat × TimerInfo :=
  if t.isActive name timer_id then (.error .DuplicatedTimerId, t)
  else
    match firstIdxWhere (fun s => s.isNone) t.slots with
    | some i => (.ok (t.first + i), ⟨t.first, t.slots.set i (some ⟨name, timer_id, once⟩)⟩)
    | none => (.error .NoSpace, t)

/-- Modelled from the spec: `TimerInfo::get_info(token)` — the bound triple
if the token is active. -/
def TimerInfo.get_info (t : TimerInfo) (token : Nat) : Option TimerItem :=
  if token < t.first then none
  else t.slots.getD (token - t.first) none

/-- Modelled from the spec: `TimerInfo::remove_by_token(token)` — frees the
slot bound to the token; absent-token removal is a no-op. -/
def TimerInfo.remove_by_token (t : TimerInfo) (token : Nat) : TimerInfo :=
  if token < t.first then t
  else ⟨t.first, t.slots.set (token - t.first) none⟩

/-- Modelled from the spec: `TimerInfo::remove_by_info(name, timer_id)` —
returns the slot's token and frees it when the pair is active, `none`
otherwise. -/
def TimerInfo.remove_by_info (t : TimerInfo) (name : String) (timer_id : Nat) :
    Option Nat × TimerInfo :=
  match firstIdxWhere (matchesInfo name timer_id) t.slots with
  | some i => (some (t.first + i), ⟨t.first, t.slots.set i none⟩)
  | none => (none, t)

/-- Embeds `FIRST_TIMER_TOKEN` (timer.rs:65). -/
def FIRST_TIMER_TOKEN : Nat := 0

/-- Embeds `MAX_TIMERS` (timer.rs:66). -/
def MAX_TIMERS : Nat := 100

/-- Embeds `LAST_TIMER_TOKEN` (timer.rs:67). -/
def LAST_TIMER_TOKEN : Nat := FIRST_TIMER_TOKEN + MAX_TIMERS

/-- Embeds `timer::HandlerMessage` (timer.rs:30-45). -/
inductive HandlerMessage where
  | SetTimer (extension_name : String) (timer_id : Nat) (ms : Nat)
  | SetTimerOnce (extension_name : String) (timer_id : Nat) (ms : Nat)
  | ClearTimer (extension_name : String) (timer_id : Nat)
deriving DecidableEq

/-- Embeds `timer::Error` (timer.rs:48-50), plus a constructor for the
`unreachable!()` arm on an out-of-range token. -/
inductive HandlerError where
  | InvalidTimer (token : Nat)
  | UnreachableToken (token : Nat)
deriving DecidableEq

/-- The `client.on_timeout(&info.name, info.timer_id)` call emitted by the
handler towards the Registry. -/
structure TimeoutDispatch where
  name : String
  timer_id : Nat
deriving DecidableEq

/-- Calls from the handler into the external IO timer facility. -/
inductive IoOp where
  | registerTimer (token ms : Nat)
  | registerTimerOnce (token ms : Nat)
  | clearTimer (token : Nat)
deriving DecidableEq

/-- Reports from the handler back to the Registry
(`on_timer_set_allowed` / `on_timer_set_denied`). -/
inductive TimerReport where
  | allowed (extension_name : String) (timer_id : Nat)
  | denied (extension_name : String) (timer_id : Nat) (reason : ExtensionError)
deriving DecidableEq

/-- Outcome of one `Handler::message` step: the allocator state plus the IO
calls and Registry reports emitted, in order. -/
structure MessageOut where
  timer : TimerInfo
  io_ops : List IoOp
  reports : List TimerReport
deriving DecidableEq

/-- Embeds `Handler::timeout` (timer.rs:79-92): on a fired token in range, look up
the logical info (error `InvalidTimer` when absent); a one-shot timer's
mapping is removed from the allocator before the timeout is dispatched; the
returned pair is the allocator state current at the moment of the
`client.on_timeout` dispatch together with that dispatch. -/
def Handler.timeout (timer : TimerInfo) (token : Nat) :
    Except HandlerError (TimerInfo × TimeoutDispatch) :=
  if FIRST_TIMER_TOKEN ≤ token ∧ token ≤ LAST_TIMER_TOKEN then
    match timer.get_info token with
    | none => .error (.InvalidTimer token)
    | some info =>
      let timer' := if info.once then timer.remove_by_token token else timer
      .ok (timer', ⟨info.name, info.timer_id⟩)
  else .error (.UnreachableToken token)

/-- Embeds `Handler::message` (timer.rs:94-146).  `SetTimer`/`SetTimerOnce` attempt
an allocator insert, registering the token with the IO facility and
reporting `allowed` on success, and reporting `denied` with the specific
reason on failure.  `ClearTimer` removes the pair, panicking (modelled as
`.error` carrying the `expect` message) when it was never armed. -/
def Handler.message (timer : TimerInfo) (msg : HandlerMessage) : Except String MessageOut :=
  match msg with
  | .SetTimer extension_name timer_id ms =>
    match timer.insert extension_name timer_id false with
    | (.ok token, timer') =>
      .ok ⟨timer', [.registerTimer token ms], [.allowed extension_name timer_id]⟩
    | (.error .DuplicatedTimerId, timer') =>
      .ok ⟨timer', [], [.denied extension_name timer_id .DuplicatedTimerId]⟩
    | (.error .NoSpace, timer') =>
      .ok ⟨timer', [], [.denied extension_name timer_id .NoMoreTimerToken]⟩
  | .SetTimerOnce extension_name timer_id ms =>
    match timer.insert extension_name timer_id true with
    | (.ok token, timer') =>
      .ok ⟨timer', [.registerTimerOnce token ms], [.allowed extension_name timer_id]⟩
    | (.error .DuplicatedTimerId, timer') =>
      .ok ⟨timer', [], [.denied extension_name timer_id .DuplicatedTimerId]⟩
    | (.error .NoSpace, timer') =>
      .ok ⟨timer', [], [.denied extension_name timer_id .NoMoreTimerToken]⟩
  | .ClearTimer extension_name timer_id =>
    match timer.remove_by_info extension_name timer_id with
    | (some token, timer') => .ok ⟨timer', [.clearTimer token], []⟩
    | (none, _) => .error "Unexpected timer id"

theorem listGetD_set_self {α : Type} (l : List α) :
    ∀ (i : Nat) (v d : α), i < l.length → (l.set i v).getD i d = v := by
  induction l with
  | nil => intro i v d h; simp at h
  | cons a l ih =>
    intro i v d h
    cases i with
    | zero => simp
    | succ n =>
      simp only [List.set_cons_succ, List.getD_cons_succ]
      exact ih n v d (by simpa using h)

theorem listGetD_lt {α : Type} (l : List (Option α)) :
    ∀ (i : Nat) (v : α), l.getD i none = some v → i < l.length := by
  induction l with
  | nil => intro i v h; simp [List.getD] at h
  | cons a l ih =>
    intro i v h
    cases i with
    | zero => simp
    | succ n =>
      simp only [List.getD_cons_succ] at h
      simpa using ih n v h

theorem firstIdxWhere_some_lt (p : Option TimerItem → Bool) (l : List (Option TimerItem)) :
    ∀ i, firstIdxWhere p l = some i → i < l.length := by
  induction l with
  | nil => intro i h; simp [firstIdxWhere] at h
  | cons s rest ih =>
    intro i h
    by_cases hp : p s
    · simp [firstIdxWhere, hp] at h
      simp [← h]
    · cases hr : firstIdxWhere p rest with
      | none => simp [firstIdxWhere, hp, hr] at h
      | some j =>
        simp [firstIdxWhere, hp, hr] at h
        have := ih j hr
        simp [← h]
        omega

theorem firstIdxWhere_isSome (p : Option TimerItem → Bool) (l : List (Option TimerItem)) :
    (firstIdxWhere p l).isSome = l.any p := by
  induction l with
  | nil => simp [firstIdxWhere]
  | cons s rest ih =>
    by_cases hp : p s
    · simp [firstIdxWhere, hp]
    · simp [firstIdxWhere, hp, ih]

/-- Failed inserts leave the allocator unmodified. -/
theorem insert_error_unchanged (ti : TimerInfo) (name : String) (tid : Nat) (once : Bool)
    (e : TimerInfoError) (t' : TimerInfo) (h : ti.insert name tid once = (.error e, t')) :
    t' = ti := by
  unfold TimerInfo.insert at h
  by_cases ha : ti.isActive name tid
  · simp [ha] at h
    exact h.2.symm
  · simp only [ha, Bool.false_eq_true, if_neg, ite_false] at h
    cases hidx : firstIdxWhere (fun s => s.isNone) ti.slots with
    | some i => rw [hidx] at h; simp at h
    | none => rw [hidx] at h; simp at h; exact h.2.symm

/-- C3: for a fired token bound in the allocator, the timeout handler
dispatches `on_timeout(name, timer_id)` for the bound extension; when the
entry is one-shot the `(name, timer_id)` mapping has already been removed
from the allocator at the moment of the dispatch (its token no longer
resolves), and when recurring the allocator is left intact. -/
theorem one_shot_self_clear (ti : TimerInfo) (token : Nat) (info : TimerItem)
    (hinfo : ti.get_info token = some info) (htok : token ≤ LAST_TIMER_TOKEN) :
    Handler.timeout ti token =
      .ok ((if info.once then ti.remove_by_token token else ti), ⟨info.name, info.timer_id⟩) ∧
    (info.once = true → (ti.remove_by_token token).get_info token = none) ∧
    (info.once = false → (if info.once then ti.remove_by_token token else ti) = ti) := by
  refine ⟨?_, ?_, ?_⟩
  · simp [Handler.timeout, FIRST_TIMER_TOKEN, htok, hinfo]
  · intro _
    have hge : ¬ token < ti.first := by
      intro hlt
      simp [TimerInfo.get_info, hlt] at hinfo
    have hinfo' : ti.slots.getD (token - ti.first) none = some info := by
      rw [TimerInfo.get_info, if_neg hge] at hinfo
      exact hinfo
    have hlen : token - ti.first < ti.slots.length :=
      listGetD_lt ti.slots (token - ti.first) info hinfo'
    have hrem : ti.remove_by_token token = ⟨ti.first, ti.slots.set (token - ti.first) none⟩ := by
      rw [TimerInfo.remove_by_token, if_neg hge]
    rw [hrem, TimerInfo.get_info]
    simp only [if_neg hge]
    exact listGetD_set_self ti.slots (token - ti.first) none none hlen
  · intro h
    simp [h]

/-- C3 witness: a one-shot timer `("e1", 7)` on token 0 fires; the dispatch
carries `("e1", 7)` and the allocator no longer resolves token 0. -/
theorem one_shot_self_clear_witness :
    Handler.timeout ⟨0, [some ⟨"e1", 7, true⟩]⟩ 0 = .ok (⟨0, [none]⟩, ⟨"e1", 7⟩) ∧
    (true = true → (TimerInfo.remove_by_token ⟨0, [some ⟨"e1", 7, true⟩]⟩ 0).get_info 0 = none) ∧
    (true = false →
      (if true then TimerInfo.remove_by_token ⟨0, [some ⟨"e1", 7, true⟩]⟩ 0
        else ⟨0, [some ⟨"e1", 7, true⟩]⟩) = ⟨0, [some ⟨"e1", 7, true⟩]⟩) :=
  one_shot_self_clear ⟨0, [some ⟨"e1", 7, true⟩]⟩ 0 ⟨"e1", 7, true⟩ (by decide) (by decide)

/-- C4: for a `SetTimer`/`SetTimerOnce` control message, a successful
allocator insert leads to exactly the returned token being registered with
the IO facility (recurring resp. single-fire) and a `timer_allowed` report;
a `DuplicatedTimerId` failure leads to a denial citing `DuplicatedTimerId`
and a `NoSpace` failure to a denial citing `NoMoreTimerToken`, never the
other reason and never an allowance. -/
theorem set_timer_reports (ti : TimerInfo) (name : String) (tid ms : Nat)
    (r1 r2 : Except TimerInfoError Nat) (t1 t2 : TimerInfo)
    (h1 : ti.insert name tid false = (r1, t1))
    (h2 : ti.insert name tid true = (r2, t2)) :
    Handler.message ti (.SetTimer name tid ms) =
      .ok (match r1 with
        | .ok token => ⟨t1, [.registerTimer token ms], [.allowed name tid]⟩
        | .error .DuplicatedTimerId => ⟨ti, [], [.denied name tid .DuplicatedTimerId]⟩
        | .error .NoSpace => ⟨ti, [], [.denied name tid .NoMoreTimerToken]⟩) ∧
    Handler.message ti (.SetTimerOnce name tid ms) =
      .ok (match r2 with
        | .ok token => ⟨t2, [.registerTimerOnce token ms], [.allowed name tid]⟩
        | .error .DuplicatedTimerId => ⟨ti, [], [.denied name tid .DuplicatedTimerId]⟩
        | .error .NoSpace => ⟨ti, [], [.denied name tid .NoMoreTimerToken]⟩) := by
  constructor
  · cases r1 with
    | ok token => simp [Handler.message, h1]
    | error e =>
      have ht1 : t1 = ti := insert_error_unchanged ti name tid false e t1 h1
      cases e <;> simp [Handler.message, h1, ht1]
  · cases r2 with
    | ok token => simp [Handler.message, h2]
    | error e =>
      have ht2 : t2 = ti := insert_error_unchanged ti name tid true e t2 h2
      cases e <;> simp [Handler.message, h2, ht2]

/-- C4 witness: inserting `("a", 0)` into a fresh two-slot pool succeeds
with token 0, which is registered and allowed. -/
theorem set_timer_reports_witness :
    Handler.message (TimerInfo.new 0 2) (.SetTimer "a" 0 5) =
      .ok ⟨⟨0, [some ⟨"a", 0, false⟩, none]⟩, [.registerTimer 0 5], [.allowed "a" 0]⟩ ∧
    Handler.message (TimerInfo.new 0 2) (.SetTimerOnce "a" 0 5) =
      .ok ⟨⟨0, [some ⟨"a", 0, true⟩, none]⟩, [.registerTimerOnce 0 5], [.allowed "a" 0]⟩ :=
  set_timer_reports (TimerInfo.new 0 2) "a" 0 5 (.ok 0) (.ok 0)
    ⟨0, [some ⟨"a", 0, false⟩, none]⟩ ⟨0, [some ⟨"a", 0, true⟩, none]⟩
    rfl rfl

/-- C7: a `ClearTimer` for a pair with no active allocator entry escalates
fatally (the `expect` panic), never a recoverable error; for an armed pair
the entry is removed and the token deregistered from the IO facility.  The
absent-entry condition is exactly `isActive = false`. -/
theorem clear_unarmed_fatal (ti : TimerInfo) (name : String) (tid : Nat) :
    (ti.isActive name tid = false →
      Handler.message ti (.ClearTimer name tid) = .error "Unexpected timer id") ∧
    (∀ token ti', ti.remove_by_info name tid = (some token, ti') →
      Handler.message ti (.ClearTimer name tid) = .ok ⟨ti', [.clearTimer token], []⟩) ∧
    (ti.isActive name tid = false ↔ (ti.remove_by_info name tid).1 = none) := by
  cases hidx : firstIdxWhere (matchesInfo name tid) ti.slots with
  | none =>
    have hact : ti.isActive name tid = false := by
      rw [TimerInfo.isActive, ← firstIdxWhere_isSome, hidx]
      rfl
    refine ⟨?_, ?_, ?_⟩
    · intro _
      simp [Handler.message, TimerInfo.remove_by_info, hidx]
    · intro tok ti' hsome
      simp only [TimerInfo.remove_by_info, hidx] at hsome
      simp at hsome
    · simp [TimerInfo.remove_by_info, hidx, hact]
  | some i =>
    have hact : ti.isActive name tid = true := by
      rw [TimerInfo.isActive, ← firstIdxWhere_isSome, hidx]
      rfl
    refine ⟨?_, ?_, ?_⟩
    · intro hfalse
      rw [hact] at hfalse
      exact absurd hfalse (by simp)
    · intro tok ti' hsome
      simp only [TimerInfo.remove_by_info, hidx] at hsome
      simp only [Prod.mk.injEq, Option.some.injEq] at hsome
      obtain ⟨h1, h2⟩ := hsome
      simp [Handler.message, TimerInfo.remove_by_info, hidx, h1, h2]
    · simp [TimerInfo.remove_by_info, hidx, hact]

/-- C7 witness: clearing the never-armed pair `("a", 0)` on a fresh pool
panics with the `expect` message. -/
theorem clear_unarmed_fatal_witness :
    Handler.message (TimerInfo.new 0 2) (.ClearTimer "a" 0) = .error "Unexpected timer id" :=
  (clear_unarmed_fatal (TimerInfo.new 0 2) "a" 0).1 rfl

/-- The allocator after 100 successful inserts: every slot of the handler's
pool (`TimerInfo::new(FIRST_TIMER_TOKEN, MAX_TIMERS)`) is occupied by a
timer of extension `"a"`. -/
def fullTimerInfo : TimerInfo :=
  (List.range MAX_TIMERS).foldl (fun t i => (t.insert "a" i false).2)
    (TimerInfo.new FIRST_TIMER_TOKEN MAX_TIMERS)

set_option maxRecDepth 100000 in
/-- C9 counterexample: on the full allocator the pair `("b", 0)` is not
currently active, yet `insert("b", 0, once)` does not succeed — it fails
with `NoSpace` — refuting the claim that insertion succeeds for every
not-currently-active pair. -/
theorem insert_not_total_cex :
    fullTimerInfo.isActive "b" 0 = false ∧
    (fullTimerInfo.insert "b" 0 false).1 = .error .NoSpace := by
  constructor
  · rfl
  · rfl

/-- C9 amended: for every `(name, timer_id)` pair not currently active and
with at least one free slot remaining, `insert(name, timer_id, once)`
succeeds with a token on which `get_info` returns exactly the inserted
`(name, timer_id, once)` triple. -/
theorem insert_get_info_roundtrip (ti : TimerInfo) (name : String) (tid : Nat) (once : Bool)
    (hact : ti.isActive name tid = false)
    (hfree : ti.slots.any (fun s => s.isNone) = true) :
    ∃ token ti', ti.insert name tid once = (.ok token, ti') ∧
      ti'.get_info token = some ⟨name, tid, once⟩ := by
  have hsome : (firstIdxWhere (fun s => s.isNone) ti.slots).isSome = true := by
    rw [firstIdxWhere_isSome]
    exact hfree
  obtain ⟨i, hidx⟩ := Option.isSome_iff_exists.mp hsome
  have hlen : i < ti.slots.length := firstIdxWhere_some_lt _ ti.slots i hidx
  refine ⟨ti.first + i, ⟨ti.first, ti.slots.set i (some ⟨name, tid, once⟩)⟩, ?_, ?_⟩
  · simp [TimerInfo.insert, hact, hidx]
  · have hge : ¬ ti.first + i < ti.first := by omega
    rw [TimerInfo.get_info]
    simp only [if_neg hge]
    have : ti.first + i - ti.first = i := by omega
    rw [this]
    exact listGetD_set_self ti.slots i (some ⟨name, tid, once⟩) none hlen

/-- C9 amended witness: inserting `("a", 7)` one-shot into the handler's
fresh pool round-trips through `get_info`. -/
theorem insert_get_info_roundtrip_witness :
    ∃ token ti', (TimerInfo.new 0 100).insert "a" 7 true = (.ok token, ti') ∧
      ti'.get_info token = some ⟨"a", 7, true⟩ :=
  insert_get_info_roundtrip (TimerInfo.new 0 100) "a" 7 true rfl rfl

/-! ### Extension-facing Api (`ClientApi` in `src/network/src/client.rs`)

The `Weak<NetworkExtension>` is embedded as the result of `upgrade()`:
`some name` while the owning extension is alive (all the Api reads from it
is its name), `none` once it has been dropped.  `IoChannel::send_sync` is
embedded as a flag saying whether the channel is reachable; the message
handed to a reachable channel is returned as the queued control message. -/

/-- Embeds `timer::Message` as sent by `ClientApi` (client.rs:65-116). -/
inductive TimerMessage where
  | SetTimer (extension_name : String) (timer_id : Nat) (duration : Nat)
  | SetTimerOnce (extension_name : String) (timer_id : Nat) (duration : Nat)
  | ClearTimer (extension_name : String) (timer_id : Nat)
  | LocalMessage (extension_name : String) (message : List Nat)
deriving DecidableEq

/-- Embeds `NetworkExtensionError` variants used on these paths (the defining file
is not provided): the extension has been dropped, or the channel send
failed and was converted by `?`. -/
inductive NetworkExtensionError where
  | ExtensionDropped
  | ChannelError
deriving DecidableEq

/-- Embeds `ClientApi` (client.rs:29-33): the upgraded weak reference and the
timer channel. -/
structure ClientApi where
  extension : Option String
  timer_channel_ok : Bool
deriving DecidableEq

/-- Embeds `ClientApi::set_timer` (client.rs:65-76): error when the extension is
gone or the channel send fails; on success the `SetTimer` control message
is queued. -/
def ClientApi.set_timer (api : ClientApi) (timer_id duration : Nat) :
    Except NetworkExtensionError TimerMessage :=
  match api.extension with
  | some extension_name =>
    if api.timer_channel_ok then .ok (.SetTimer extension_name timer_id duration)
    else .error .ChannelError
  | none => .error .ExtensionDropped

/-- Embeds `ClientApi::set_timer_once` (client.rs:78-89). -/
def ClientApi.set_timer_once (api : ClientApi) (timer_id duration : Nat) :
    Except NetworkExtensionError TimerMessage :=
  match api.extension with
  | some extension_name =>
    if api.timer_channel_ok then .ok (.SetTimerOnce extension_name timer_id duration)
    else .error .ChannelError
  | none => .error .ExtensionDropped

/-- Embeds `ClientApi::clear_timer` (client.rs:91-101). -/
def ClientApi.clear_timer (api : ClientApi) (timer_id : Nat) :
    Except NetworkExtensionError TimerMessage :=
  match api.extension with
  | some extension_name =>
    if api.timer_channel_ok then .ok (.ClearTimer extension_name timer_id)
    else .error .ChannelError
  | none => .error .ExtensionDropped

/-- Whether an Api call returned success. -/
def callOk (r : Except NetworkExtensionError TimerMessage) : Bool :=
  match r with
  | .ok _ => true
  | .error _ => false

/-- C6: each of `set_timer`, `set_timer_once` and `clear_timer` errors
exactly when the owning extension no longer resolves or the timer channel
is unreachable; otherwise it succeeds and the success carries only the
queued control message — no timer outcome is decided by the call. -/
theorem api_timer_call_semantics (api : ClientApi) (tid dur : Nat) :
    callOk (api.set_timer tid dur) = (api.extension.isSome && api.timer_channel_ok) ∧
    callOk (api.set_timer_once tid dur) = (api.extension.isSome && api.timer_channel_ok) ∧
    callOk (api.clear_timer tid) = (api.extension.isSome && api.timer_channel_ok) ∧
    (api.extension = none →
      api.set_timer tid dur = .error .ExtensionDropped ∧
      api.set_timer_once tid dur = .error .ExtensionDropped ∧
      api.clear_timer tid = .error .ExtensionDropped) ∧
    (∀ name, api.extension = some name → api.timer_channel_ok = false →
      api.set_timer tid dur = .error .ChannelError ∧
      api.set_timer_once tid dur = .error .ChannelError ∧
      api.clear_timer tid = .error .ChannelError) ∧
    (∀ name, api.extension = some name → api.timer_channel_ok = true →
      api.set_timer tid dur = .ok (.SetTimer name tid dur) ∧
      api.set_timer_once tid dur = .ok (.SetTimerOnce name tid dur) ∧
      api.clear_timer tid = .ok (.ClearTimer name tid)) := by
  obtain ⟨ext, ch⟩ := api
  cases ext with
  | none =>
    cases ch <;>
      simp [ClientApi.set_timer, ClientApi.set_timer_once, ClientApi.clear_timer, callOk]
  | some name =>
    cases ch <;>
      simp [ClientApi.set_timer, ClientApi.set_timer_once, ClientApi.clear_timer, callOk]

/-- C6 witness: a live extension `"a"` on a reachable channel has all three
calls succeed with the corresponding queued message. -/
theorem api_timer_call_semantics_witness :
    (ClientApi.mk (some "a") true).set_timer 1 2 = .ok (.SetTimer "a" 1 2) ∧
    (ClientApi.mk (some "a") true).set_timer_once 1 2 = .ok (.SetTimerOnce "a" 1 2) ∧
    (ClientApi.mk (some "a") true).clear_timer 1 = .ok (.ClearTimer "a" 1) :=
  (api_timer_call_semantics ⟨some "a", true⟩ 1 2).2.2.2.2.2 "a" rfl rfl
